/-
  Verification of the UDP unicast link subsystem
  (src/io/zenoh-links/zenoh-link-udp/src/unicast.rs).

  Shallow embedding: the Rust functions are translated into executable Lean
  definitions; asynchronous state (the leftover cursor, the Mvar rendezvous,
  the listener registry, the accept-demux loop) becomes explicit state
  passing; machine integers become Nat; fallible operations return
  Option/Except.  External collaborators that are not part of the translated
  file (the OS socket, the buffer pool, the session layer's strong
  references, the host's address list) are modelled as oracle parameters.
-/
import Mathlib

namespace ZenohUdp

/-! ## Basic data model: IP addresses, socket addresses, locators, endpoints -/

/-- An IP address, either IPv4 (four octets) or IPv6 (eight 16-bit segments),
mirroring Rust's `std::net::IpAddr`. -/
inductive IpAddr where
  | v4 (a b c d : Nat)
  | v6 (s0 s1 s2 s3 s4 s5 s6 s7 : Nat)
deriving DecidableEq, Repr

namespace IpAddr

/-- Rust's `IpAddr::is_ipv4`. -/
def is_ipv4 : IpAddr → Bool
  | .v4 _ _ _ _ => true
  | .v6 _ _ _ _ _ _ _ _ => false

/-- Rust's `IpAddr::is_ipv6`. -/
def is_ipv6 : IpAddr → Bool
  | .v4 _ _ _ _ => false
  | .v6 _ _ _ _ _ _ _ _ => true

/-- Rust's `IpAddr::is_loopback`: IPv4 `127.0.0.0/8`,
IPv6 `::1`. -/
def is_loopback : IpAddr → Bool
  | .v4 a _ _ _ => a == 127
  | .v6 s0 s1 s2 s3 s4 s5 s6 s7 =>
      s0 == 0 && s1 == 0 && s2 == 0 && s3 == 0 &&
      s4 == 0 && s5 == 0 && s6 == 0 && s7 == 1

/-- Rust's `IpAddr::is_multicast`: IPv4
`224.0.0.0/4`, IPv6 `ff00::/8`. -/
def is_multicast : IpAddr → Bool
  | .v4 a _ _ _ => 224 ≤ a && a ≤ 239
  | .v6 s0 _ _ _ _ _ _ _ => Nat.land s0 0xff00 == 0xff00

end IpAddr

/-- Family agreement between two IP addresses. -/
def sameFamily (a b : IpAddr) : Bool :=
  a.is_ipv4 == b.is_ipv4

/-- A resolved socket address (`std::net::SocketAddr`): IP address plus
port. -/
structure SockAddr where
  ip : IpAddr
  port : Nat
deriving DecidableEq, Repr

/-- A locator: scheme-tagged network address with optional metadata
(`scheme://host:port[?metadata]` in the spec's grammar).  For the UDP
subsystem the scheme is `"udp"` and the address part is a resolved socket
address. -/
structure Locator where
  protocol : String
  addr : SockAddr
  metadata : Option String
deriving DecidableEq, Repr

/-- Modelled from the spec: `Locator::new(UDP_LOCATOR_PREFIX, &addr)` is
declared outside the translated file; per the locator
grammar `udp/<host>:<port>[?<metadata>]` a locator built from a bare socket
address carries no `?metadata` part, so its metadata is absent (`get_locators`
assigns the metadata field separately after calling it). -/
def Locator.mk_udp (addr : SockAddr) : Locator :=
  { protocol := "udp", addr := addr, metadata := none }

/-- Modelled from the spec: the helper `socket_addr_to_udp_locator(&addr)` is
declared in the UDP link crate outside the translated file; its call sites
in `LinkUnicastUdp::new` pass only a `SocketAddr`, and by the locator grammar
a locator built from a bare socket address has no metadata. -/
def socket_addr_to_udp_locator (addr : SockAddr) : Locator :=
  Locator.mk_udp addr

/-- An endpoint: a locator plus optional configuration (the configuration
plays no role in the translated code paths). -/
structure EndPoint where
  locator : Locator
deriving DecidableEq, Repr

/-- Resolution `get_udp_addr(&locator)`: resolve a locator to a socket address.  In this
model addresses are already resolved, so resolution is projection. -/
def get_udp_addr (l : Locator) : SockAddr :=
  l.addr

/-! ## Unconnected read path (`LinkUnicastUdpUnconnected::read`)

A byte is a `Nat`; a received datagram is a pair `(slice, len)` where
`slice` is the pooled buffer's contents and `len` the number of valid bytes
(`recv_from` returned `len` into a buffer of `UDP_MAX_MTU` bytes, so
`len ≤ slice.length`).  The `Mvar` rendezvous delivers datagrams one at a
time; over time the link sees a sequence of them, modelled as a list with
the head being the next `take`.  An empty list means `take` would block. -/

/-- A pooled receive buffer with its valid length:
`(RecyclingObject<Box<[u8]>>, usize)`. -/
abbrev LinkInput := List Nat × Nat

/-- The read-leftover cursor `(buffer, start, len)`:
`(RecyclingObject<Box<[u8]>>, usize, usize)`. -/
abbrev LinkLeftOver := List Nat × Nat × Nat

/-- The receive-side state of an Unconnected link: the leftover cursor under
its mutex, plus the stream of datagrams the rendezvous will deliver. -/
structure UnconnRecvState where
  leftover : Option LinkLeftOver
  input : List LinkInput
deriving DecidableEq, Repr

/-- Result of one `read`: the bytes copied into the caller's buffer (at
offset 0), the returned count, whether the pooled buffer was recycled on
this call, and the successor state. -/
structure ReadResult where
  out : List Nat
  count : Nat
  recycled : Bool
  state : UnconnRecvState
deriving DecidableEq, Repr

/-- The source-acquisition step of `read`: `guard.take()` if a leftover
exists, else `self.input.take().await` with `start = 0`.  `none` means the
read blocks (no leftover and no pending datagram). -/
def takeSource (st : UnconnRecvState) : Option (LinkLeftOver × UnconnRecvState) :=
  match st.leftover with
  | some t => some (t, { st with leftover := none })
  | none =>
      match st.input with
      | [] => none
      | d :: rest => some ((d.1, 0, d.2), { leftover := none, input := rest })

/-- Translation of `LinkUnicastUdpUnconnected::read(buffer)` for a caller buffer of length
`buflen`: copy `min(len - start, buflen)` bytes from `slice[start..end]`,
store the leftover if `end < len`, otherwise recycle the buffer; return the
copied count.  `none` models a blocked read. -/
def unconnRead (st : UnconnRecvState) (buflen : Nat) : Option ReadResult :=
  match takeSource st with
  | none => none
  | some ((slice, start, len), st₁) =>
      let len_min := Nat.min (len - start) buflen
      let e := start + len_min
      let out := (slice.take e).drop start
      if e < len then
        some { out := out, count := len_min, recycled := false,
               state := { st₁ with leftover := some (slice, e, len) } }
      else
        some { out := out, count := len_min, recycled := true, state := st₁ }

/-- A sequence of `read` calls with buffer lengths `bs`, stopping at the
first blocked read (reads past a drained rendezvous block forever):
returns the concatenation of all bytes delivered, the number of `recycle`
calls, and the final state. -/
def unconnReads (st : UnconnRecvState) : List Nat → List Nat × Nat × UnconnRecvState
  | [] => ([], 0, st)
  | b :: bs =>
      match unconnRead st b with
      | none => ([], 0, st)
      | some r =>
          let (c, k, st') := unconnReads r.state bs
          (r.out ++ c, (if r.recycled then 1 else 0) + k, st')

/-! ## Link objects (`LinkUnicastUdp`, its two variants, `close`)

Weak references are modelled by numeric link identifiers plus an
environment predicate saying which identifiers are still strongly held.
The per-listener link table `LinkHashMap` is an association list from
`(src_addr, dst_addr)` to the identifier of the Unconnected half. -/

/-- The per-listener link table:
`HashMap<(SocketAddr, SocketAddr), Weak<LinkUnicastUdpUnconnected>>`. -/
abbrev LinkHashMap := List ((SockAddr × SockAddr) × Nat)

/-- Operation `HashMap::get` on the link table (`zgetlink!`). -/
def tableGet (t : LinkHashMap) (k : SockAddr × SockAddr) : Option Nat :=
  match t.find? (fun e => e.1 = k) with
  | some e => some e.2
  | none => none

/-- Operation `HashMap::insert` on the link table (`zaddlink!`); the key is unique per
table, so insertion replaces any stale entry. -/
def tableInsert (t : LinkHashMap) (k : SockAddr × SockAddr) (id : Nat) : LinkHashMap :=
  (k, id) :: t.filter (fun e => e.1 ≠ k)

/-- Operation `HashMap::remove` on the link table (`zdellink!`,
`LinkUnicastUdpUnconnected::close`). -/
def tableRemove (t : LinkHashMap) (k : SockAddr × SockAddr) : LinkHashMap :=
  t.filter (fun e => e.1 ≠ k)

/-- The link variant: Connected (exclusively owned socket) or Unconnected
(identifier of the shared Unconnected half in the listener's table). -/
inductive LinkUnicastUdpVariant where
  | connected
  | unconnected (id : Nat)
deriving DecidableEq, Repr

/-- Structure `LinkUnicastUdp`: resolved addresses, their cached locator forms, and
the variant. -/
structure LinkUnicastUdp where
  src_addr : SockAddr
  src_locator : Locator
  dst_addr : SockAddr
  dst_locator : Locator
  variant : LinkUnicastUdpVariant
deriving DecidableEq, Repr

/-- Constructor `LinkUnicastUdp::new(src_addr, dst_addr, variant)`: caches the locator
forms of both addresses. -/
def LinkUnicastUdp.new (src_addr dst_addr : SockAddr)
    (variant : LinkUnicastUdpVariant) : LinkUnicastUdp :=
  { src_locator := socket_addr_to_udp_locator src_addr
    dst_locator := socket_addr_to_udp_locator dst_addr
    src_addr := src_addr
    dst_addr := dst_addr
    variant := variant }

/-- The listener-side state `close` can touch: the shared link table and the
listener socket (alive or dropped). -/
structure ListenerSideState where
  links : LinkHashMap
  socketAlive : Bool
deriving DecidableEq, Repr

/-- Translation of `LinkUnicastUdp::close`: Connected — `Ok(())`, nothing touched;
Unconnected — remove `(src_addr, dst_addr)` from the listener's link table.
Both variants return `Ok`, modelled by always pairing the successor state
with a trivially successful result. -/
def LinkUnicastUdp.close (l : LinkUnicastUdp) (st : ListenerSideState) :
    Except String Unit × ListenerSideState :=
  match l.variant with
  | .connected => (Except.ok (), st)
  | .unconnected _ =>
      (Except.ok (), { st with links := tableRemove st.links (l.src_addr, l.dst_addr) })

/-- Translation of `LinkManagerUnicastUdp::new_link(endpoint)`: resolve the endpoint to
`dst_addr`, bind and connect a fresh socket, read `src_addr`/`dst_addr`
back from the socket, and wrap them in a Connected link.  The OS-assigned
ephemeral source address is an oracle parameter; `peer_addr` of a socket
connected to `dst_addr` is `dst_addr`. -/
def new_link (endpoint : EndPoint) (os_local_addr : SockAddr) : LinkUnicastUdp :=
  let dst_addr := get_udp_addr endpoint.locator
  LinkUnicastUdp.new os_local_addr dst_addr .connected

/-! ## `write_all` / `read_exact` loops

The underlying `write`/`read` calls are external I/O; their successive
outcomes are an oracle list (`Except.ok n` = the call returned `n` bytes,
`Except.error e` = the call failed).  The loop model returns `none` when the
oracle is exhausted while the loop would issue another call (the loop is
still running), and otherwise the propagated result together with the
number of underlying calls made. -/

/-- The loop body shared by `write_all` and `read_exact`: starting from
`written` accumulated bytes, run `while written < buflen` taking one oracle
outcome per iteration, propagating errors with `?`. -/
def drainLoop (buflen : Nat) : Nat → Nat → List (Except String Nat) →
    Option (Except String Unit × Nat)
  | written, calls, [] =>
      if buflen ≤ written then some (Except.ok (), calls) else none
  | written, calls, o :: rest =>
      if buflen ≤ written then some (Except.ok (), calls)
      else
        match o with
        | .error e => some (Except.error e, calls + 1)
        | .ok n => drainLoop buflen (written + n) (calls + 1) rest

/-- Translation of `LinkUnicastUdp::write_all(buffer)` with `buffer.len() = buflen`:
loop `write` until `written ≥ buflen`. -/
def write_all (buflen : Nat) (outs : List (Except String Nat)) :
    Option (Except String Unit × Nat) :=
  drainLoop buflen 0 0 outs

/-- Translation of `LinkUnicastUdp::read_exact(buffer)` with `buffer.len() = buflen`:
loop `read` until `read ≥ buflen`. -/
def read_exact (buflen : Nat) (outs : List (Except String Nat)) :
    Option (Except String Unit × Nat) :=
  drainLoop buflen 0 0 outs

/-! ## Link manager: listener registry, `del_listener`, `get_locators`

Errors are modelled per the spec's error-kind table (`zerror!` builds them
outside the translated file): a "not found" error carries the unknown
address, an I/O error carries the OS message; the two are distinct
constructors. -/

/-- Modelled from the spec: the error discriminants of the single
`LinkError` relevant here; `zerror!` itself lives outside the translated
file.  `notFound` is produced by `del_listener` on an unknown bind, `io` by
`recv`/`send` failures. -/
inductive LinkError where
  | notFound (addr : SockAddr)
  | io (msg : String)
deriving DecidableEq, Repr

/-- Structure `ListenerUnicastUdp`: the bound endpoint, the `active` flag, whether the
stop signal has been triggered, and — standing for `handle.await` — the
status the accept-demux task completes with. -/
structure ListenerUnicastUdp where
  endpoint : EndPoint
  active : Bool
  signalTriggered : Bool
  taskStatus : Except String Unit
deriving Repr

/-- The manager's listener registry: `HashMap<SocketAddr, ListenerUnicastUdp>`
as an association list with unique keys. -/
abbrev ListenerRegistry := List (SockAddr × ListenerUnicastUdp)

/-- Operation `HashMap::get` on the listener registry. -/
def regGet (reg : ListenerRegistry) (k : SockAddr) : Option ListenerUnicastUdp :=
  match reg.find? (fun e => e.1 = k) with
  | some e => some e.2
  | none => none

/-- Operation `HashMap::remove` on the listener registry. -/
def regRemove (reg : ListenerRegistry) (k : SockAddr) : ListenerRegistry :=
  reg.filter (fun e => e.1 ≠ k)

/-- Outcome of `del_listener`: the returned status, the registry afterwards,
and — when a listener was found — its state after the stores
(`active.store(false)`, `signal.trigger()`) and the awaited join. -/
structure DelListenerResult where
  result : Except LinkError Unit
  registry : ListenerRegistry
  stopped : Option ListenerUnicastUdp
  awaited : Bool
deriving Repr

/-- Translation of `LinkManagerUnicastUdp::del_listener(endpoint)`: resolve the endpoint to
an address; remove the listener registered under it (error `notFound` if
absent); store `active := false`; trigger the stop signal; await the task
handle and propagate its status (an I/O failure surfaces as `LinkError.io`). -/
def del_listener (reg : ListenerRegistry) (endpoint : EndPoint) : DelListenerResult :=
  let addr := get_udp_addr endpoint.locator
  match regGet reg addr with
  | none =>
      { result := Except.error (LinkError.notFound addr)
        registry := reg
        stopped := none
        awaited := false }
  | some listener =>
      let listener' := { listener with active := false, signalTriggered := true }
      { result :=
          match listener'.taskStatus with
          | .ok () => Except.ok ()
          | .error e => Except.error (LinkError.io e)
        registry := regRemove reg addr
        stopped := some listener'
        awaited := true }

/-- Oracle for `get_local_addresses()` on the host: `Ok` with the host's
interface addresses, or an OS error. -/
abbrev LocalAddresses := Except String (List IpAddr)

/-- The IPv4 wildcard `0.0.0.0`. -/
def default_ipv4 : IpAddr := IpAddr.v4 0 0 0 0

/-- The IPv6 wildcard `::`. -/
def default_ipv6 : IpAddr := IpAddr.v6 0 0 0 0 0 0 0 0

/-- The body of `get_locators` for one registry entry `(key, value)`:
wildcard-bound listeners are expanded over the host's local addresses of the
same family (dropping loopback and multicast, keeping the bound port and the
endpoint's metadata); others contribute their locator unchanged.  A failing
`get_local_addresses` is logged and contributes nothing. -/
def locatorsOfListener (localAddrs : LocalAddresses)
    (key : SockAddr) (value : ListenerUnicastUdp) : List Locator :=
  if key.ip = default_ipv4 then
    match localAddrs with
    | .ok ipaddrs =>
        (ipaddrs.filter (fun ipaddr =>
            !ipaddr.is_loopback && !ipaddr.is_multicast && ipaddr.is_ipv4)).map
          (fun ipaddr =>
            { Locator.mk_udp ⟨ipaddr, key.port⟩ with
                metadata := value.endpoint.locator.metadata })
    | .error _ => []
  else if key.ip = default_ipv6 then
    match localAddrs with
    | .ok ipaddrs =>
        (ipaddrs.filter (fun ipaddr =>
            !ipaddr.is_loopback && !ipaddr.is_multicast && ipaddr.is_ipv6)).map
          (fun ipaddr =>
            { Locator.mk_udp ⟨ipaddr, key.port⟩ with
                metadata := value.endpoint.locator.metadata })
    | .error _ => []
  else
    [value.endpoint.locator]

/-- Translation of `LinkManagerUnicastUdp::get_locators()`: concatenate the contribution of
every registered listener. -/
def get_locators (reg : ListenerRegistry) (localAddrs : LocalAddresses) :
    List Locator :=
  reg.flatMap (fun e => locatorsOfListener localAddrs e.1 e.2)

/-- The spec's description of one listener's locators, written from the
spec's words for comparison with the translation above: for a wildcard bind,
one locator per local host address of that family that is neither loopback
nor multicast, carrying the listener's port and the listener endpoint's
metadata; otherwise the listener's locator unchanged. -/
def locatorsOfListenerSpec (hostAddrs : List IpAddr)
    (key : SockAddr) (value : ListenerUnicastUdp) : List Locator :=
  if key.ip = default_ipv4 ∨ key.ip = default_ipv6 then
    (hostAddrs.filter (fun a =>
        sameFamily a key.ip && !a.is_loopback && !a.is_multicast)).map
      (fun a =>
        { protocol := "udp", addr := ⟨a, key.port⟩,
          metadata := value.endpoint.locator.metadata })
  else
    [value.endpoint.locator]

/-! ## Accept-demux task (`accept_read_task`)

The task's mutable state: the link table, a fresh-identifier counter, and
the pending rendezvous content of every Unconnected link it created
(`Mvar` holds at most one datagram; here the whole delivery history is an
association list from link identifier to delivered datagrams, newest last,
so that "the datagram reached link `id`'s rendezvous" is expressible).
The session layer's strong references are the oracle `alive : Nat → Bool`
(does `Weak::upgrade` on that link succeed?), and `sinkOk` says whether
`manager.send_async` accepts a freshly created link (on success the sink
holds the link's strong reference, so its upgrade succeeds). -/

/-- Observable actions of one demux iteration, in program order. -/
inductive DemuxEvent where
  | createLink (id : Nat)
  | insertTable (id : Nat)
  | sendSink (id : Nat)
  | putRendezvous (id : Nat) (datagram : LinkInput)
  | removeEntry (key : SockAddr × SockAddr)
deriving DecidableEq, Repr

/-- Mutable state of the accept-demux task. -/
structure DemuxState where
  table : LinkHashMap
  nextId : Nat
  delivered : List (Nat × LinkInput)
deriving DecidableEq, Repr

/-- The datagrams delivered to link `id`'s rendezvous, in delivery order. -/
def DemuxState.rendezvousOf (st : DemuxState) (id : Nat) : List LinkInput :=
  (st.delivered.filter (fun e => e.1 = id)).map (fun e => e.2)

/-- One pass of the demux body (lines 528-563 of the source) for a datagram
of `n` valid bytes from `dst_addr`, received on the listener bound to
`src_addr`:
lookup `(src, dst)`; on a hit, upgrade the weak reference and either deliver
the datagram (`received` → `Mvar::put`) or, if the link has been dropped,
remove the stale entry and drop the datagram; on a miss, create a fresh
Unconnected link, insert its weak reference into the table, publish the link
on the new-link sink, and then loop back so that the hit branch delivers the
first datagram. -/
def demuxStep (alive : Nat → Bool) (sinkOk : Bool) (st : DemuxState)
    (src_addr dst_addr : SockAddr) (dg : LinkInput) :
    DemuxState × List DemuxEvent :=
  match tableGet st.table (src_addr, dst_addr) with
  | some id =>
      if alive id then
        ({ st with delivered := st.delivered ++ [(id, dg)] },
         [.putRendezvous id dg])
      else
        ({ st with table := tableRemove st.table (src_addr, dst_addr) },
         [.removeEntry (src_addr, dst_addr)])
  | none =>
      let id := st.nextId
      let st₁ : DemuxState :=
        { st with table := tableInsert st.table (src_addr, dst_addr) id,
                  nextId := id + 1 }
      let created : List DemuxEvent :=
        [.createLink id, .insertTable id, .sendSink id]
      -- second pass of the inner loop: the entry is now present; upgrade
      -- succeeds exactly when the sink accepted the strong reference
      if sinkOk then
        ({ st₁ with delivered := st₁.delivered ++ [(id, dg)] },
         created ++ [.putRendezvous id dg])
      else
        ({ st₁ with table := tableRemove st₁.table (src_addr, dst_addr) },
         created ++ [.removeEntry (src_addr, dst_addr)])

/-- What the `receive(..).race(stop(..))` in one iteration resolves to:
a datagram from a peer, the stop branch (the signal was triggered and won
the race), or a receive error. -/
inductive RaceOutcome where
  | recv (dst_addr : SockAddr) (dg : LinkInput)
  | stop
  | ioErr (msg : String)
deriving DecidableEq, Repr

/-- Why the accept loop ended. -/
inductive ExitReason where
  | activeCleared
  | stopSignal
deriving DecidableEq, Repr

/-- The accept loop (`while active.load(Acquire) { ... }`): at each
iteration head the loop reads the `active` flag (schedule `as`, one value
per iteration, since another task may clear it at any time); when `true`,
the race resolves to the next scheduled outcome — `stop` breaks the loop, a
receive error throttles and continues, a datagram runs the demux body.
`none` means the task is still running (or blocked in the race) after the
whole schedule. -/
def acceptLoop (alive : Nat → Bool) (sinkOk : Bool) (src_addr : SockAddr) :
    DemuxState → List Bool → List RaceOutcome →
    Option (ExitReason × DemuxState)
  | _, [], _ => none
  | st, a :: as, outs =>
      if a = false then some (.activeCleared, st)
      else
        match outs with
        | [] => none
        | o :: outs' =>
            match o with
            | .stop => some (.stopSignal, st)
            | .ioErr _ => acceptLoop alive sinkOk src_addr st as outs'
            | .recv dst dg =>
                acceptLoop alive sinkOk src_addr
                  (demuxStep alive sinkOk st src_addr dst dg).1 as outs'

/-! ## Auxiliary predicates and measures used by the theorems -/

/-- Total number of bytes reported by the successful underlying calls in an
oracle prefix. -/
def sumOks : List (Except String Nat) → Nat
  | [] => 0
  | .ok n :: rest => n + sumOks rest
  | .error _ :: rest => sumOks rest

/-- Well-formedness of a stored leftover cursor `(slice, start, len)`:
the cursor points strictly inside the valid bytes and the valid bytes fit
in the pooled buffer. -/
def wfCursor : LinkLeftOver → Prop :=
  fun t => t.2.1 < t.2.2 ∧ t.2.2 ≤ t.1.length

/-- Well-formedness of a received datagram `(slice, len)`: `recv_from`
returned at most the buffer's capacity. -/
def wfInput : LinkInput → Prop :=
  fun d => d.2 ≤ d.1.length

/-- Well-formedness of the receive-side state of an Unconnected link. -/
def wfState (st : UnconnRecvState) : Prop :=
  (∀ c, st.leftover = some c → wfCursor c) ∧ (∀ d ∈ st.input, wfInput d)

/-! ## Helper lemmas on the association-list maps -/

theorem find?_filter_keep {α : Type _} (l : List α) (p q : α → Bool)
    (h : ∀ a, q a = true → p a = true) :
    List.find? q (l.filter p) = List.find? q l := by
  induction l with
  | nil => rfl
  | cons a l ih =>
      rcases hp : p a with _ | _
      · have hq : q a = false := by
          rcases hqa : q a with _ | _
          · rfl
          · rw [h a hqa] at hp; cases hp
        rw [List.filter_cons, hp]
        simp only [Bool.false_eq_true, if_false]
        rw [ih, List.find?_cons, hq]
      · rw [List.filter_cons, hp]
        simp only [if_true]
        rw [List.find?_cons, List.find?_cons]
        rcases hqa : q a with _ | _
        · exact ih
        · rfl

theorem tableGet_remove_self (t : LinkHashMap) (k : SockAddr × SockAddr) :
    tableGet (tableRemove t k) k = none := by
  unfold tableGet tableRemove
  have h : List.find? (fun e => decide (e.1 = k))
      (t.filter (fun e => decide (e.1 ≠ k))) = none := by
    rw [List.find?_eq_none]
    intro x hx
    have := (List.mem_filter.mp hx).2
    simpa using this
  rw [h]

theorem tableGet_remove_other (t : LinkHashMap) (k k' : SockAddr × SockAddr)
    (h : k' ≠ k) : tableGet (tableRemove t k) k' = tableGet t k' := by
  unfold tableGet tableRemove
  rw [find?_filter_keep]
  intro a ha
  have ha' : a.1 = k' := by simpa using ha
  simp [ha', h]

theorem regGet_remove_self (reg : ListenerRegistry) (k : SockAddr) :
    regGet (regRemove reg k) k = none := by
  unfold regGet regRemove
  have h : List.find? (fun e => decide (e.1 = k))
      (reg.filter (fun e => decide (e.1 ≠ k))) = none := by
    rw [List.find?_eq_none]
    intro x hx
    have := (List.mem_filter.mp hx).2
    simpa using this
  rw [h]

theorem regGet_remove_other (reg : ListenerRegistry) (k k' : SockAddr)
    (h : k' ≠ k) : regGet (regRemove reg k) k' = regGet reg k' := by
  unfold regGet regRemove
  rw [find?_filter_keep]
  intro a ha
  have ha' : a.1 = k' := by simpa using ha
  simp [ha', h]

/-- A successful exit of the drain loop implies the cumulative count
returned by the underlying calls it made reached the buffer's length. -/
theorem drainLoop_ok_le (buflen : Nat) (outs : List (Except String Nat)) :
    ∀ written calls c,
      drainLoop buflen written calls outs = some (Except.ok (), c) →
      calls ≤ c ∧ buflen ≤ written + sumOks (outs.take (c - calls)) := by
  induction outs with
  | nil =>
      intro w cl c h
      unfold drainLoop at h
      split at h
      · rename_i hle
        injection h with h'
        injection h' with h₁ h₂
        subst h₂
        simp only [Nat.sub_self, List.take_nil, sumOks]
        exact ⟨Nat.le_refl _, by omega⟩
      · cases h
  | cons o rest ih =>
      intro w cl c h
      unfold drainLoop at h
      split at h
      · rename_i hle
        injection h with h'
        injection h' with h₁ h₂
        subst h₂
        simp only [Nat.sub_self, List.take_zero, sumOks]
        exact ⟨Nat.le_refl _, by omega⟩
      · rename_i hgt
        match o, h with
        | .error e, h => cases h.symm.trans rfl
        | .ok n, h =>
            have hrec := ih (w + n) (cl + 1) c h
            have hc : cl + 1 ≤ c := hrec.1
            have htk : c - cl = (c - (cl + 1)) + 1 := by omega
            refine ⟨by omega, ?_⟩
            rw [htk, List.take_succ_cons]
            simp only [sumOks]
            omega

/-- C10: `write_all` on an empty buffer returns `Ok(())` with zero calls to
`write`, `read_exact` on an empty buffer returns `Ok(())` with zero calls to
`read`, and neither loop exits with `Ok` until the cumulative count
returned by the underlying calls reaches the buffer's length. -/
theorem C10_write_all_read_exact_loops :
    (∀ outs, write_all 0 outs = some (Except.ok (), 0)) ∧
    (∀ outs, read_exact 0 outs = some (Except.ok (), 0)) ∧
    (∀ buflen outs c, write_all buflen outs = some (Except.ok (), c) →
        buflen ≤ sumOks (outs.take c)) ∧
    (∀ buflen outs c, read_exact buflen outs = some (Except.ok (), c) →
        buflen ≤ sumOks (outs.take c)) := by
  have hempty : ∀ outs, drainLoop 0 0 0 outs = some (Except.ok (), 0) := by
    intro outs
    cases outs <;> simp [drainLoop]
  have hok : ∀ buflen outs c,
      drainLoop buflen 0 0 outs = some (Except.ok (), c) →
      buflen ≤ sumOks (outs.take c) := by
    intro buflen outs c h
    have := (drainLoop_ok_le buflen outs 0 0 c h).2
    simpa using this
  exact ⟨fun outs => hempty outs, fun outs => hempty outs,
    fun b o c h => hok b o c h, fun b o c h => hok b o c h⟩

/-- Witness for C10: a concrete successful `write_all` over two underlying
writes of 2 bytes each on a 3-byte buffer indeed accumulated at least 3
bytes. -/
theorem C10_witness :
    write_all 3 [Except.ok 2, Except.ok 2] = some (Except.ok (), 2) ∧
    3 ≤ sumOks ([Except.ok 2, Except.ok 2].take 2) :=
  ⟨by rfl,
   C10_write_all_read_exact_loops.2.2.1 3 [Except.ok 2, Except.ok 2] 2 (by rfl)⟩

/-- C8: `close` returns `Ok` for both variants; for a Connected link it
changes no link-layer state, and for an Unconnected link it removes exactly
the `(src_addr, dst_addr)` entry from the listener's link table while
leaving the listener socket and all other table entries unchanged. -/
theorem C8_close_frame (l : LinkUnicastUdp) (st : ListenerSideState) :
    (l.close st).1 = Except.ok () ∧
    (l.close st).2.socketAlive = st.socketAlive ∧
    (l.variant = .connected → (l.close st).2 = st) ∧
    (∀ id, l.variant = .unconnected id →
      (l.close st).2.links = tableRemove st.links (l.src_addr, l.dst_addr) ∧
      tableGet (l.close st).2.links (l.src_addr, l.dst_addr) = none ∧
      (∀ k, k ≠ (l.src_addr, l.dst_addr) →
        tableGet (l.close st).2.links k = tableGet st.links k)) := by
  rcases l with ⟨sa, sloc, da, dloc, v⟩
  cases v with
  | connected =>
      refine ⟨rfl, rfl, fun _ => rfl, fun id hid => ?_⟩
      cases hid
  | unconnected id =>
      refine ⟨rfl, rfl, fun hc => ?_, fun id' _ => ?_⟩
      · cases hc
      · refine ⟨rfl, ?_, ?_⟩
        · exact tableGet_remove_self st.links (sa, da)
        · intro k hk
          exact tableGet_remove_other st.links (sa, da) k hk

/-- Witness for C8: closing the Unconnected link for a concrete peer pair
removes that pair's entry and keeps the entry of a different peer. -/
theorem C8_witness :
    tableGet (((LinkUnicastUdp.new ⟨IpAddr.v4 127 0 0 1, 7447⟩
        ⟨IpAddr.v4 127 0 0 1, 9000⟩ (.unconnected 0)).close
        ⟨[((⟨IpAddr.v4 127 0 0 1, 7447⟩, ⟨IpAddr.v4 127 0 0 1, 9000⟩), 0),
          ((⟨IpAddr.v4 127 0 0 1, 7447⟩, ⟨IpAddr.v4 127 0 0 1, 9001⟩), 1)],
         true⟩).2.links)
      (⟨IpAddr.v4 127 0 0 1, 7447⟩, ⟨IpAddr.v4 127 0 0 1, 9000⟩) = none ∧
    tableGet (((LinkUnicastUdp.new ⟨IpAddr.v4 127 0 0 1, 7447⟩
        ⟨IpAddr.v4 127 0 0 1, 9000⟩ (.unconnected 0)).close
        ⟨[((⟨IpAddr.v4 127 0 0 1, 7447⟩, ⟨IpAddr.v4 127 0 0 1, 9000⟩), 0),
          ((⟨IpAddr.v4 127 0 0 1, 7447⟩, ⟨IpAddr.v4 127 0 0 1, 9001⟩), 1)],
         true⟩).2.links)
      (⟨IpAddr.v4 127 0 0 1, 7447⟩, ⟨IpAddr.v4 127 0 0 1, 9001⟩) = some 1 := by
  have h := C8_close_frame
    (LinkUnicastUdp.new ⟨IpAddr.v4 127 0 0 1, 7447⟩
      ⟨IpAddr.v4 127 0 0 1, 9000⟩ (.unconnected 0))
    ⟨[((⟨IpAddr.v4 127 0 0 1, 7447⟩, ⟨IpAddr.v4 127 0 0 1, 9000⟩), 0),
      ((⟨IpAddr.v4 127 0 0 1, 7447⟩, ⟨IpAddr.v4 127 0 0 1, 9001⟩), 1)],
     true⟩
  have h2 := h.2.2.2 0 rfl
  refine ⟨h2.2.1, ?_⟩
  have h3 := h2.2.2 (⟨IpAddr.v4 127 0 0 1, 7447⟩, ⟨IpAddr.v4 127 0 0 1, 9001⟩)
    (by decide)
  rw [h3]
  rfl

/-- C1, counterexample: a `new_link` call on an endpoint whose locator
carries metadata produces a link whose `dst_locator` has no metadata, so the
metadata of the link's `dst_locator` differs from the originating endpoint's
metadata. -/
theorem C1_counterexample :
    (new_link
        ⟨⟨"udp", ⟨IpAddr.v4 192 168 1 1, 7447⟩, some "iface=eth0"⟩⟩
        ⟨IpAddr.v4 192 168 1 2, 54321⟩).dst_locator.metadata ≠
      (EndPoint.mk ⟨"udp", ⟨IpAddr.v4 192 168 1 1, 7447⟩,
        some "iface=eth0"⟩).locator.metadata := by
  decide

/-- C1, amended: every `LinkUnicastUdp` built by `LinkUnicastUdp::new` —
hence every link produced by `new_link` or by the accept-demux task — has a
`dst_locator` whose metadata is absent, because the locator is rebuilt from
the bare destination socket address; it equals the originating endpoint's
metadata exactly when that endpoint's locator carries no metadata. -/
theorem C1_dst_locator_no_metadata :
    ∀ (ep : EndPoint) (os_local src dst : SockAddr)
      (v : LinkUnicastUdpVariant),
      (new_link ep os_local).dst_locator.metadata = none ∧
      (LinkUnicastUdp.new src dst v).dst_locator.metadata = none ∧
      ((new_link ep os_local).dst_locator.metadata = ep.locator.metadata ↔
        ep.locator.metadata = none) := by
  intro ep os_local src dst v
  refine ⟨rfl, rfl, ?_⟩
  constructor
  · intro h
    exact h.symm
  · intro h
    exact h.symm

/-- C5: `del_listener` resolves the endpoint to an address; when a listener
is registered under that address it removes it from the registry (leaving
other entries), clears `active`, triggers the stop signal, awaits the task
and returns its status; when none is registered it returns a not-found
error — a constructor distinct from the I/O error — and leaves the registry
unchanged. -/
theorem C5_del_listener (reg : ListenerRegistry) (ep : EndPoint) :
    (regGet reg (get_udp_addr ep.locator) = none →
      (del_listener reg ep).result =
          Except.error (LinkError.notFound (get_udp_addr ep.locator)) ∧
      (del_listener reg ep).registry = reg ∧
      (del_listener reg ep).awaited = false ∧
      (∀ m, LinkError.notFound (get_udp_addr ep.locator) ≠ LinkError.io m)) ∧
    (∀ l, regGet reg (get_udp_addr ep.locator) = some l →
      (del_listener reg ep).registry = regRemove reg (get_udp_addr ep.locator) ∧
      regGet (del_listener reg ep).registry (get_udp_addr ep.locator) = none ∧
      (∀ k, k ≠ get_udp_addr ep.locator →
        regGet (del_listener reg ep).registry k = regGet reg k) ∧
      (del_listener reg ep).awaited = true ∧
      (del_listener reg ep).stopped =
        some { l with active := false, signalTriggered := true } ∧
      (del_listener reg ep).result =
        (match l.taskStatus with
          | .ok () => Except.ok ()
          | .error e => Except.error (LinkError.io e))) := by
  constructor
  · intro hnone
    simp only [del_listener]
    rw [hnone]
    exact ⟨rfl, rfl, rfl, fun m h => by cases h⟩
  · intro l hsome
    simp only [del_listener]
    rw [hsome]
    refine ⟨rfl, ?_, ?_, rfl, rfl, rfl⟩
    · exact regGet_remove_self reg (get_udp_addr ep.locator)
    · intro k hk
      exact regGet_remove_other reg (get_udp_addr ep.locator) k hk

/-- Witness for C5: deleting a registered listener at a concrete address
removes it, stops it and returns its task status; deleting at an
unregistered address reports not-found and keeps the registry. -/
theorem C5_witness :
    regGet [(⟨IpAddr.v4 0 0 0 0, 7447⟩,
        ⟨⟨⟨"udp", ⟨IpAddr.v4 0 0 0 0, 7447⟩, none⟩⟩, true, false,
          Except.ok ()⟩)] (⟨IpAddr.v4 0 0 0 0, 7447⟩ : SockAddr) =
      some ⟨⟨⟨"udp", ⟨IpAddr.v4 0 0 0 0, 7447⟩, none⟩⟩, true, false,
        Except.ok ()⟩ ∧
    (del_listener [(⟨IpAddr.v4 0 0 0 0, 7447⟩,
        ⟨⟨⟨"udp", ⟨IpAddr.v4 0 0 0 0, 7447⟩, none⟩⟩, true, false,
          Except.ok ()⟩)]
        ⟨⟨"udp", ⟨IpAddr.v4 0 0 0 0, 7447⟩, none⟩⟩).registry =
      regRemove [(⟨IpAddr.v4 0 0 0 0, 7447⟩,
        ⟨⟨⟨"udp", ⟨IpAddr.v4 0 0 0 0, 7447⟩, none⟩⟩, true, false,
          Except.ok ()⟩)] ⟨IpAddr.v4 0 0 0 0, 7447⟩ ∧
    regGet [] (⟨IpAddr.v4 0 0 0 0, 7447⟩ : SockAddr) = none ∧
    (del_listener ([] : ListenerRegistry)
        ⟨⟨"udp", ⟨IpAddr.v4 0 0 0 0, 7447⟩, none⟩⟩).result =
      Except.error (LinkError.notFound ⟨IpAddr.v4 0 0 0 0, 7447⟩) := by
  refine ⟨by rfl, ?_, by rfl, ?_⟩
  · exact ((C5_del_listener
      [(⟨IpAddr.v4 0 0 0 0, 7447⟩,
        ⟨⟨⟨"udp", ⟨IpAddr.v4 0 0 0 0, 7447⟩, none⟩⟩, true, false,
          Except.ok ()⟩)]
      ⟨⟨"udp", ⟨IpAddr.v4 0 0 0 0, 7447⟩, none⟩⟩).2
      ⟨⟨⟨"udp", ⟨IpAddr.v4 0 0 0 0, 7447⟩, none⟩⟩, true, false,
        Except.ok ()⟩ (by rfl)).1
  · exact ((C5_del_listener ([] : ListenerRegistry)
      ⟨⟨"udp", ⟨IpAddr.v4 0 0 0 0, 7447⟩, none⟩⟩).1 (by rfl)).1

/-- Per-listener agreement between the translated `get_locators` body and
the spec's description of the expansion. -/
theorem locatorsOfListener_eq_spec (hostAddrs : List IpAddr)
    (key : SockAddr) (value : ListenerUnicastUdp) :
    locatorsOfListener (Except.ok hostAddrs) key value =
      locatorsOfListenerSpec hostAddrs key value := by
  unfold locatorsOfListener locatorsOfListenerSpec
  by_cases h4 : key.ip = default_ipv4
  · rw [if_pos h4, if_pos (Or.inl h4)]
    have hfil : ∀ a ∈ hostAddrs,
        (!a.is_loopback && !a.is_multicast && a.is_ipv4) =
          (sameFamily a key.ip && !a.is_loopback && !a.is_multicast) := by
      intro a _
      rw [h4]
      cases a <;> simp [sameFamily, IpAddr.is_ipv4, default_ipv4,
        Bool.and_comm, Bool.and_assoc, Bool.and_left_comm]
    show List.map _ (List.filter
      (fun a => !a.is_loopback && !a.is_multicast && a.is_ipv4) hostAddrs) = _
    rw [List.filter_congr hfil]
    rfl
  · rw [if_neg h4]
    by_cases h6 : key.ip = default_ipv6
    · rw [if_pos h6, if_pos (Or.inr h6)]
      have hfil : ∀ a ∈ hostAddrs,
          (!a.is_loopback && !a.is_multicast && a.is_ipv6) =
            (sameFamily a key.ip && !a.is_loopback && !a.is_multicast) := by
        intro a _
        rw [h6]
        cases a <;> simp [sameFamily, IpAddr.is_ipv4, IpAddr.is_ipv6,
          default_ipv6, Bool.and_comm, Bool.and_assoc, Bool.and_left_comm]
      show List.map _ (List.filter
        (fun a => !a.is_loopback && !a.is_multicast && a.is_ipv6) hostAddrs) = _
      rw [List.filter_congr hfil]
      rfl
    · rw [if_neg h6, if_neg (by
        intro h
        cases h with
        | inl h => exact h4 h
        | inr h => exact h6 h)]

/-- C6: `get_locators` emits, for every wildcard-bound listener, one locator
per local host address of the same family that is neither loopback nor
multicast — each with the listener's port and the listener endpoint's
metadata — and, for every non-wildcard listener, that listener's locator
unchanged: the translation equals the spec-worded expansion listener by
listener. -/
theorem C6_get_locators_expansion (reg : ListenerRegistry)
    (hostAddrs : List IpAddr) :
    get_locators reg (Except.ok hostAddrs) =
      reg.flatMap (fun e => locatorsOfListenerSpec hostAddrs e.1 e.2) := by
  unfold get_locators
  induction reg with
  | nil => rfl
  | cons e t ih =>
      rw [List.flatMap_cons, List.flatMap_cons,
        locatorsOfListener_eq_spec hostAddrs e.1 e.2, ih]

/-- Gluing adjacent window copies: the bytes `slice[start..mid]` followed by
the bytes `slice[mid..len]` are the bytes `slice[start..len]`. -/
theorem take_drop_glue (l : List Nat) (s e len : Nat) (hse : s ≤ e)
    (helen : e ≤ len) :
    (l.take e).drop s ++ (l.take len).drop e = (l.take len).drop s := by
  have h1 : l.take e = (l.take len).take e := by
    rw [List.take_take, Nat.min_eq_left helen]
  rw [h1]
  have h2 : ((l.take len).take e).drop s = ((l.take len).drop s).take (e - s) := by
    rw [List.drop_take]
  have h3 : (l.take len).drop e = ((l.take len).drop s).drop (e - s) := by
    rw [List.drop_drop]
    congr 1
    omega
  rw [h2, h3, List.take_append_drop]

/-- A link whose rendezvous will deliver nothing more blocks on every read:
the read sequence returns nothing and recycles nothing. -/
theorem unconnReads_blocked (bs : List Nat) :
    unconnReads ⟨none, []⟩ bs = ([], 0, ⟨none, []⟩) := by
  cases bs with
  | nil => rfl
  | cons b rest => rfl

/-- Stepping lemma: one read of the sequence, when it returns a result,
contributes its bytes and its recycle flag ahead of the rest. -/
theorem unconnReads_cons_some {st : UnconnRecvState} {b : Nat}
    {rest : List Nat} {R : ReadResult} (h : unconnRead st b = some R) :
    unconnReads st (b :: rest) =
      (R.out ++ (unconnReads R.state rest).1,
       (if R.recycled then 1 else 0) + (unconnReads R.state rest).2.1,
       (unconnReads R.state rest).2.2) := by
  simp only [unconnReads, h]

/-- Draining a stored cursor `(slice, s, len)` with reads whose buffer sizes
cover the remaining `len - s` bytes returns exactly the bytes
`slice[s..len]`, recycles the pooled buffer exactly once, and leaves the
link empty. -/
theorem unconnReads_cursor (slice : List Nat) :
    ∀ (bs : List Nat) (s len : Nat), s ≤ len →
      len - s ≤ bs.sum → bs ≠ [] →
      unconnReads ⟨some (slice, s, len), []⟩ bs =
        ((slice.take len).drop s, 1, ⟨none, []⟩) := by
  intro bs
  induction bs with
  | nil =>
      intro s len _ _ hne
      exact absurd rfl hne
  | cons b rest ih =>
      intro s len hsl hsum _
      have hread : unconnRead ⟨some (slice, s, len), []⟩ b =
          (if s + Nat.min (len - s) b < len then
            some ⟨(slice.take (s + Nat.min (len - s) b)).drop s,
              Nat.min (len - s) b, false,
              ⟨some (slice, s + Nat.min (len - s) b, len), []⟩⟩
          else
            some ⟨(slice.take (s + Nat.min (len - s) b)).drop s,
              Nat.min (len - s) b, true, ⟨none, []⟩⟩) := by
        simp only [unconnRead, takeSource]
      by_cases he : s + Nat.min (len - s) b < len
      · rw [if_pos he] at hread
        have hb : Nat.min (len - s) b = b := by
          rcases le_or_lt (len - s) b with h | h
          · have hmin : Nat.min (len - s) b = len - s := Nat.min_eq_left h
            omega
          · exact Nat.min_eq_right (Nat.le_of_lt h)
        rw [hb] at hread he
        have hrest_sum : len - (s + b) ≤ rest.sum := by
          have h1 : len - s ≤ b + rest.sum := by
            simpa using hsum
          omega
        have hrest_ne : rest ≠ [] := by
          intro hnil
          rw [hnil] at hrest_sum
          simp only [List.sum_nil, Nat.le_zero] at hrest_sum
          omega
        have hih := ih (s + b) len (by omega) hrest_sum hrest_ne
        rw [unconnReads_cons_some hread]
        simp only [hih]
        refine Prod.ext ?_ rfl
        exact take_drop_glue slice s (s + b) len (by omega) (by omega)
      · rw [if_neg he] at hread
        have hlen : s + Nat.min (len - s) b = len := by
          have hmle : Nat.min (len - s) b ≤ len - s := Nat.min_le_left _ _
          omega
        rw [unconnReads_cons_some hread]
        simp [unconnReads_blocked, hlen]

/-- C2: a read on an Unconnected link consumes the leftover cursor when one
exists and otherwise takes the pending datagram with `start = 0`; it copies
`min(len - start, buflen)` bytes at offset 0 and returns that count, storing
the advanced cursor when the datagram is not drained and recycling the
buffer when it is; consequently a single datagram of `D` valid bytes read by
a sequence of buffers whose sizes sum to at least `D` yields exactly the
datagram's bytes in order, with the pooled buffer recycled exactly once. -/
theorem C2_unconnected_read_drain (slice : List Nat) (D : Nat)
    (bs : List Nat) (hsum : D ≤ bs.sum) (hbs : bs ≠ []) :
    (∀ sl s l inp b, unconnRead ⟨some (sl, s, l), inp⟩ b =
      (if s + Nat.min (l - s) b < l then
        some ⟨(sl.take (s + Nat.min (l - s) b)).drop s, Nat.min (l - s) b,
          false, ⟨some (sl, s + Nat.min (l - s) b, l), inp⟩⟩
      else
        some ⟨(sl.take (s + Nat.min (l - s) b)).drop s, Nat.min (l - s) b,
          true, ⟨none, inp⟩⟩)) ∧
    (∀ sl l inp b, unconnRead ⟨none, (sl, l) :: inp⟩ b =
        unconnRead ⟨some (sl, 0, l), inp⟩ b) ∧
    unconnReads ⟨none, [(slice, D)]⟩ bs = (slice.take D, 1, ⟨none, []⟩) := by
  refine ⟨?_, ?_, ?_⟩
  · intro sl s l inp b
    simp only [unconnRead, takeSource]
  · intro sl l inp b
    simp only [unconnRead, takeSource]
  · rcases bs with _ | ⟨b, rest⟩
    · exact absurd rfl hbs
    · have hfirst : unconnRead ⟨none, [(slice, D)]⟩ b =
          unconnRead ⟨some (slice, 0, D), []⟩ b := by
        simp only [unconnRead, takeSource]
      have hcur := unconnReads_cursor slice (b :: rest) 0 D (Nat.zero_le D)
        (by simpa using hsum) (by simp)
      rcases hv : unconnRead ⟨some (slice, 0, D), []⟩ b with _ | R
      · exfalso
        revert hv
        simp only [unconnRead, takeSource]
        split <;> intro hv <;> cases hv
      · rw [unconnReads_cons_some (hfirst.trans hv), ← unconnReads_cons_some hv,
          hcur, List.drop_zero]

/-- Witness for C2 (mirror of the spec's S2 scenario): a ten-byte datagram
of `0xAA` read with a 4-byte and then an 8-byte buffer yields the ten bytes
and one recycle. -/
theorem C2_witness :
    (10 ≤ ([4, 8] : List Nat).sum ∧ ([4, 8] : List Nat) ≠ []) ∧
    unconnReads ⟨none,
        [([170, 170, 170, 170, 170, 170, 170, 170, 170, 170], 10)]⟩ [4, 8] =
      ([170, 170, 170, 170, 170, 170, 170, 170, 170, 170].take 10, 1,
        ⟨none, []⟩) :=
  ⟨⟨by decide, by decide⟩,
   (C2_unconnected_read_drain
      [170, 170, 170, 170, 170, 170, 170, 170, 170, 170] 10 [4, 8]
      (by decide) (by decide)).2.2⟩

/-- C9: on a well-formed receive state (stored cursors satisfy
`start < len ≤ slice.length`, pending datagrams satisfy
`len ≤ slice.length`), the tuple a `read` operates on satisfies
`start ≤ len ≤ slice.length`, so `len - start` cannot underflow and the
copied window `slice[start..start+copied]` stays in bounds; the read
returns at most the caller's buffer length, delivers exactly the returned
count of bytes, and the state it stores is well formed again (any stored
cursor again satisfies `start < len ≤ slice.length`). -/
theorem C9_cursor_invariant (st : UnconnRecvState) (b : Nat)
    (hwf : wfState st) :
    (∀ sl s l st₁, takeSource st = some ((sl, s, l), st₁) →
        s ≤ l ∧ l ≤ sl.length ∧
        s + Nat.min (l - s) b ≤ sl.length ∧ Nat.min (l - s) b ≤ b) ∧
    (∀ r, unconnRead st b = some r →
        wfState r.state ∧ r.count ≤ b ∧ r.out.length = r.count) := by
  rcases st with ⟨lo, inp⟩
  rcases hwf with ⟨hlo, hinp⟩
  have key : ∀ sl s l st₁,
      takeSource ⟨lo, inp⟩ = some ((sl, s, l), st₁) →
      (s ≤ l ∧ l ≤ sl.length) ∧ st₁.leftover = none ∧
        ∀ d ∈ st₁.input, wfInput d := by
    intro sl s l st₁ htk
    rcases lo with _ | c
    · rcases inp with _ | ⟨d, rest⟩
      · cases htk
      · simp only [takeSource, Option.some.injEq, Prod.mk.injEq] at htk
        obtain ⟨⟨h1, h2, h3⟩, h4⟩ := htk
        subst h1 h4
        have hd : wfInput d := hinp d (List.mem_cons_self d rest)
        refine ⟨⟨?_, ?_⟩, rfl, ?_⟩
        · omega
        · have : d.2 ≤ d.1.length := hd
          omega
        · intro d' hd'
          exact hinp d' (List.mem_cons_of_mem d hd')
    · simp only [takeSource, Option.some.injEq, Prod.mk.injEq] at htk
      obtain ⟨h1, h4⟩ := htk
      subst h4
      have hc : wfCursor c := hlo c rfl
      rw [h1] at hc
      obtain ⟨hc1, hc2⟩ := hc
      exact ⟨⟨Nat.le_of_lt hc1, hc2⟩, rfl, fun d hd => hinp d hd⟩
  constructor
  · intro sl s l st₁ htk
    obtain ⟨⟨hsl, hls⟩, _, _⟩ := key sl s l st₁ htk
    have hm : Nat.min (l - s) b ≤ l - s := Nat.min_le_left _ _
    exact ⟨hsl, hls, by omega, Nat.min_le_right _ _⟩
  · intro r hr
    rcases htk : takeSource ⟨lo, inp⟩ with _ | ⟨⟨sl, s, l⟩, st₁⟩
    · rw [unconnRead, htk] at hr
      cases hr
    · obtain ⟨⟨hsl, hls⟩, hst₁lo, hst₁inp⟩ := key sl s l st₁ htk
      have hm : Nat.min (l - s) b ≤ l - s := Nat.min_le_left _ _
      rw [unconnRead, htk] at hr
      simp only at hr
      by_cases he : s + Nat.min (l - s) b < l
      · rw [if_pos he] at hr
        injection hr with hr
        subst hr
        refine ⟨⟨?_, ?_⟩, Nat.min_le_right _ _, ?_⟩
        · intro c hc
          injection hc with hc
          subst hc
          exact ⟨he, hls⟩
        · simpa using hst₁inp
        · simp only [List.length_drop, List.length_take]
          omega
      · rw [if_neg he] at hr
        injection hr with hr
        subst hr
        refine ⟨⟨?_, ?_⟩, Nat.min_le_right _ _, ?_⟩
        · intro c hc
          rw [hst₁lo] at hc
          cases hc
        · exact hst₁inp
        · simp only [List.length_drop, List.length_take]
          omega

/-- Witness for C9: a concrete well-formed state — a stored cursor at
offset 2 of a 5-byte datagram in a 6-byte pooled buffer — read with a
2-byte caller buffer returns 2 bytes and stores the advanced cursor, which
is again well formed. -/
theorem C9_witness :
    wfState ⟨some ([1, 2, 3, 4, 5, 6], 2, 5), []⟩ ∧
    ∀ r, unconnRead ⟨some ([1, 2, 3, 4, 5, 6], 2, 5), []⟩ 2 = some r →
      wfState r.state ∧ r.count ≤ 2 ∧ r.out.length = r.count := by
  have hwf : wfState ⟨some ([1, 2, 3, 4, 5, 6], 2, 5), []⟩ := by
    constructor
    · intro c hc
      injection hc with hc
      subst hc
      exact ⟨by decide, by decide⟩
    · intro d hd
      cases hd
  exact ⟨hwf, (C9_cursor_invariant ⟨some ([1, 2, 3, 4, 5, 6], 2, 5), []⟩
    2 hwf).2⟩

theorem tableGet_insert_self (t : LinkHashMap) (k : SockAddr × SockAddr)
    (id : Nat) : tableGet (tableInsert t k id) k = some id := by
  simp [tableGet, tableInsert, List.find?_cons]

/-- C3: on the first datagram from a new `(src, peer)` pair (no table entry)
with the sink accepting the link, the demux body performs, in program order,
link creation, table insertion, publication on the new-link sink, and only
then the rendezvous put of the datagram; afterwards the table maps the pair
to the new link, the new link's rendezvous holds exactly that first
datagram, and a `read` with a large-enough buffer on the published link
returns the datagram's bytes. -/
theorem C3_first_sighting (alive : Nat → Bool) (st : DemuxState)
    (src_addr dst_addr : SockAddr) (dg : LinkInput)
    (hnew : tableGet st.table (src_addr, dst_addr) = none)
    (hfresh : st.rendezvousOf st.nextId = []) :
    (demuxStep alive true st src_addr dst_addr dg).2 =
      [.createLink st.nextId, .insertTable st.nextId, .sendSink st.nextId,
       .putRendezvous st.nextId dg] ∧
    (demuxStep alive true st src_addr dst_addr dg).1.rendezvousOf
      st.nextId = [dg] ∧
    tableGet (demuxStep alive true st src_addr dst_addr dg).1.table
      (src_addr, dst_addr) = some st.nextId ∧
    (∀ b, dg.2 ≤ b →
      unconnRead ⟨none, [dg]⟩ b =
        some ⟨dg.1.take dg.2, dg.2, true, ⟨none, []⟩⟩) := by
  have hstep : demuxStep alive true st src_addr dst_addr dg =
      ({ st with
          table := tableInsert st.table (src_addr, dst_addr) st.nextId,
          nextId := st.nextId + 1,
          delivered := st.delivered ++ [(st.nextId, dg)] },
       [.createLink st.nextId, .insertTable st.nextId, .sendSink st.nextId,
        .putRendezvous st.nextId dg]) := by
    simp only [demuxStep]
    rw [hnew]
    rfl
  refine ⟨?_, ?_, ?_, ?_⟩
  · rw [hstep]
  · rw [hstep]
    have hfil : st.delivered.filter (fun e => e.1 = st.nextId) = [] := by
      have := hfresh
      unfold DemuxState.rendezvousOf at this
      exact List.map_eq_nil_iff.mp this
    unfold DemuxState.rendezvousOf
    simp only [List.filter_append, hfil]
    simp
  · rw [hstep]
    exact tableGet_insert_self st.table (src_addr, dst_addr) st.nextId
  · intro b hb
    have hmin : Nat.min (dg.2 - 0) b = dg.2 := by
      simp only [Nat.sub_zero]
      exact Nat.min_eq_left hb
    simp only [unconnRead, takeSource, hmin]
    rw [if_neg (by omega)]
    simp

/-- Witness for C3: the first datagram `[1, 2, 3]` from a concrete peer on a
fresh listener produces the create–insert–send–put sequence and lands in the
new link's rendezvous. -/
theorem C3_witness :
    (demuxStep (fun _ => true) true ⟨[], 0, []⟩ ⟨IpAddr.v4 127 0 0 1, 7447⟩
        ⟨IpAddr.v4 127 0 0 1, 9000⟩ ([1, 2, 3], 3)).2 =
      [.createLink 0, .insertTable 0, .sendSink 0,
       .putRendezvous 0 ([1, 2, 3], 3)] ∧
    (demuxStep (fun _ => true) true ⟨[], 0, []⟩ ⟨IpAddr.v4 127 0 0 1, 7447⟩
        ⟨IpAddr.v4 127 0 0 1, 9000⟩ ([1, 2, 3], 3)).1.rendezvousOf 0 =
      [([1, 2, 3], 3)] := by
  have h := C3_first_sighting (fun _ => true) ⟨[], 0, []⟩
    ⟨IpAddr.v4 127 0 0 1, 7447⟩ ⟨IpAddr.v4 127 0 0 1, 9000⟩ ([1, 2, 3], 3)
    (by rfl) (by rfl)
  exact ⟨h.1, h.2.1⟩

/-- C7: when a datagram arrives for a pair whose weak reference is dead
(`upgrade` fails), the demux body removes the table entry and delivers the
datagram to no link; a subsequent datagram from the same peer then creates
and publishes a fresh link. -/
theorem C7_stale_cleanup (alive : Nat → Bool) (st : DemuxState)
    (src_addr dst_addr : SockAddr) (dg dg₂ : LinkInput) (id : Nat)
    (hid : tableGet st.table (src_addr, dst_addr) = some id)
    (hdead : alive id = false) :
    (demuxStep alive true st src_addr dst_addr dg).2 =
      [.removeEntry (src_addr, dst_addr)] ∧
    (demuxStep alive true st src_addr dst_addr dg).1.table =
      tableRemove st.table (src_addr, dst_addr) ∧
    (demuxStep alive true st src_addr dst_addr dg).1.delivered =
      st.delivered ∧
    tableGet (demuxStep alive true st src_addr dst_addr dg).1.table
      (src_addr, dst_addr) = none ∧
    (demuxStep alive true
        (demuxStep alive true st src_addr dst_addr dg).1
        src_addr dst_addr dg₂).2 =
      [.createLink st.nextId, .insertTable st.nextId, .sendSink st.nextId,
       .putRendezvous st.nextId dg₂] := by
  have hstep : demuxStep alive true st src_addr dst_addr dg =
      ({ st with table := tableRemove st.table (src_addr, dst_addr) },
       [.removeEntry (src_addr, dst_addr)]) := by
    simp only [demuxStep]
    rw [hid]
    simp [hdead]
  have hgone : tableGet (tableRemove st.table (src_addr, dst_addr))
      (src_addr, dst_addr) = none :=
    tableGet_remove_self st.table (src_addr, dst_addr)
  refine ⟨?_, ?_, ?_, ?_, ?_⟩
  · rw [hstep]
  · rw [hstep]
  · rw [hstep]
  · rw [hstep]
    exact hgone
  · rw [hstep]
    simp only [demuxStep]
    rw [hgone]
    rfl

/-- Witness for C7: with the only strong reference to link 0 dropped, a
datagram for its pair removes the entry silently, and the next datagram
creates and publishes link 1. -/
theorem C7_witness :
    (demuxStep (fun _ => false) true
        ⟨[((⟨IpAddr.v4 127 0 0 1, 7447⟩, ⟨IpAddr.v4 127 0 0 1, 9000⟩), 0)],
         1, []⟩
        ⟨IpAddr.v4 127 0 0 1, 7447⟩ ⟨IpAddr.v4 127 0 0 1, 9000⟩
        ([5], 1)).2 =
      [.removeEntry (⟨IpAddr.v4 127 0 0 1, 7447⟩,
        ⟨IpAddr.v4 127 0 0 1, 9000⟩)] ∧
    (demuxStep (fun _ => false) true
        (demuxStep (fun _ => false) true
          ⟨[((⟨IpAddr.v4 127 0 0 1, 7447⟩, ⟨IpAddr.v4 127 0 0 1, 9000⟩), 0)],
           1, []⟩
          ⟨IpAddr.v4 127 0 0 1, 7447⟩ ⟨IpAddr.v4 127 0 0 1, 9000⟩
          ([5], 1)).1
        ⟨IpAddr.v4 127 0 0 1, 7447⟩ ⟨IpAddr.v4 127 0 0 1, 9000⟩
        ([6], 1)).2 =
      [.createLink 1, .insertTable 1, .sendSink 1,
       .putRendezvous 1 ([6], 1)] := by
  have h := C7_stale_cleanup (fun _ => false)
    ⟨[((⟨IpAddr.v4 127 0 0 1, 7447⟩, ⟨IpAddr.v4 127 0 0 1, 9000⟩), 0)], 1, []⟩
    ⟨IpAddr.v4 127 0 0 1, 7447⟩ ⟨IpAddr.v4 127 0 0 1, 9000⟩
    ([5], 1) ([6], 1) 0 (by rfl) (by rfl)
  exact ⟨h.1, h.2.2.2.2⟩

/-- C4, counterexample: a run of the accept loop in which the `active` flag
reads `true` at every iteration head (it is never cleared) but the stop
branch wins the race terminates the task — so the task does terminate when
only one of the two conditions (`active = false`, stop signal tripped)
holds, contradicting the claimed equivalence. -/
theorem C4_counterexample :
    acceptLoop (fun _ => true) true ⟨IpAddr.v4 0 0 0 0, 7447⟩ ⟨[], 0, []⟩
        [true] [RaceOutcome.stop] =
      some (ExitReason.stopSignal, ⟨[], 0, []⟩) ∧
    false ∉ [true] := by
  constructor
  · rfl
  · decide

/-- C4, amended: the accept loop exits when the `active` flag reads `false`
at the head of an iteration, and it exits when the stop branch wins the
race of an iteration whose flag read `true`; either condition alone
suffices, and as long as every flag read is `true` and the stop branch
never wins, the loop keeps running. -/
theorem C4_accept_loop_exit (alive : Nat → Bool) (sinkOk : Bool)
    (src_addr : SockAddr) :
    (∀ st as outs, as.head? = some false →
        acceptLoop alive sinkOk src_addr st as outs =
          some (.activeCleared, st)) ∧
    (∀ st as outs, as.head? = some true → outs.head? = some .stop →
        acceptLoop alive sinkOk src_addr st as outs =
          some (.stopSignal, st)) ∧
    (∀ as st outs, (∀ a ∈ as, a = true) → (∀ o ∈ outs, o ≠ .stop) →
        acceptLoop alive sinkOk src_addr st as outs = none) := by
  refine ⟨?_, ?_, ?_⟩
  · intro st as outs hhead
    rcases as with _ | ⟨a, as'⟩
    · cases hhead
    · injection hhead with hhead
      subst hhead
      rfl
  · intro st as outs hhead houts
    rcases as with _ | ⟨a, as'⟩
    · cases hhead
    · rcases outs with _ | ⟨o, outs'⟩
      · cases houts
      · injection hhead with hhead
        injection houts with houts
        subst hhead houts
        rfl
  · intro as
    induction as with
    | nil =>
        intro st outs _ _
        rfl
    | cons a as' ih =>
        intro st outs hact houts
        have ha : a = true := hact a (List.mem_cons_self a as')
        subst ha
        have hact' : ∀ x ∈ as', x = true := fun x hx =>
          hact x (List.mem_cons_of_mem true hx)
        rcases outs with _ | ⟨o, outs'⟩
        · simp [acceptLoop]
        · have houts' : ∀ x ∈ outs', x ≠ RaceOutcome.stop := fun x hx =>
            houts x (List.mem_cons_of_mem o hx)
          have ho : o ≠ RaceOutcome.stop :=
            houts o (List.mem_cons_self o outs')
          rcases o with ⟨dst, dg⟩ | _ | msg
          · simpa [acceptLoop] using ih _ outs' hact' houts'
          · exact absurd rfl ho
          · simpa [acceptLoop] using ih st outs' hact' houts'

/-- Witness for C4's amended statement: a cleared flag alone exits the loop,
a stop outcome alone exits the loop, and a run of two iterations with the
flag high and only a receive outcome keeps the task running. -/
theorem C4_witness :
    acceptLoop (fun _ => true) true ⟨IpAddr.v4 0 0 0 0, 7447⟩ ⟨[], 0, []⟩
        [false] [] = some (.activeCleared, ⟨[], 0, []⟩) ∧
    acceptLoop (fun _ => true) true ⟨IpAddr.v4 0 0 0 0, 7447⟩ ⟨[], 0, []⟩
        [true, true] [RaceOutcome.stop] = some (.stopSignal, ⟨[], 0, []⟩) ∧
    acceptLoop (fun _ => true) true ⟨IpAddr.v4 0 0 0 0, 7447⟩ ⟨[], 0, []⟩
        [true, true] [RaceOutcome.ioErr "eagain"] = none := by
  refine ⟨?_, ?_, ?_⟩
  · exact (C4_accept_loop_exit (fun _ => true) true
      ⟨IpAddr.v4 0 0 0 0, 7447⟩).1 ⟨[], 0, []⟩ [false] [] (by rfl)
  · exact (C4_accept_loop_exit (fun _ => true) true
      ⟨IpAddr.v4 0 0 0 0, 7447⟩).2.1 ⟨[], 0, []⟩ [true, true]
      [RaceOutcome.stop] (by rfl) (by rfl)
  · exact (C4_accept_loop_exit (fun _ => true) true
      ⟨IpAddr.v4 0 0 0 0, 7447⟩).2.2 [true, true] ⟨[], 0, []⟩
      [RaceOutcome.ioErr "eagain"] (by decide)
      (by intro o ho; fin_cases ho; simp)

end ZenohUdp
